import Mathlib

/-!
Verification development for the `xilie` VS Code Spotify extension.

The definitions below are a shallow embedding of `src/spotify/auth.ts`
(class `SpotifyAuth`) and `src/spotify/api.ts` (class `SpotifyApi`).
External effects (the Spotify token endpoint, the Web API, the random
number generator, the SHA-256 digest) are modelled as explicit oracle
parameters; the VS Code secret store is modelled as a record holding the
four keys the code uses.  JavaScript truthiness on optional strings
(`undefined`, `null` and `""` are falsy) is modelled by `truthy`.
-/

namespace Xilie

/-- JavaScript truthiness of an optional string: `undefined`/`null`
(`none`) and the empty string are falsy, every other string is truthy. -/
def truthy : Option String → Bool
  | none => false
  | some s => s ≠ ""

/-- The four `vscode.SecretStorage` entries used by `SpotifyAuth`:
`spotifyAccessToken`, `spotifyRefreshToken`, `spotifyTokenExpiry` and
`xilie.pkce.codeVerifier`.  The expiry entry is stored by the code as the
decimal string of an epoch-millisecond number and read back with
`parseInt`; since numbers round-trip through that encoding we model the
entry directly as an optional natural number. -/
structure SecretStore where
  accessToken : Option String
  refreshToken : Option String
  tokenExpiry : Option Nat
  codeVerifier : Option String
  deriving Repr, DecidableEq

/-- The JSON body returned by the Spotify token endpoint
(`POST https://accounts.spotify.com/api/token`): `access_token`,
optional `refresh_token`, `expires_in` (seconds).  `refresh_token` is
`none` when the field is absent from the response. -/
structure TokenResponse where
  access_token : String
  refresh_token : Option String
  expires_in : Nat
  deriving Repr, DecidableEq

/-- The token endpoint for the refresh grant, as an oracle: the request is
determined by the stored refresh token (the code sends
`refreshToken!`, i.e. possibly `undefined`); `none` models a non-ok
HTTP response (the code then throws). -/
def TokenEndpoint := Option String → Option TokenResponse

namespace SpotifyAuth

/-- `SpotifyAuth.clearTokens`: deletes the three token entries
(`spotifyAccessToken`, `spotifyRefreshToken`, `spotifyTokenExpiry`) from
the secret store.  The PKCE verifier entry is not touched. -/
def clearTokens (s : SecretStore) : SecretStore :=
  { s with accessToken := none, refreshToken := none, tokenExpiry := none }

/-- `SpotifyAuth.refreshAccessToken`: posts the refresh grant to the token
endpoint; on a non-ok response throws (`none`).  On success it stores the
new access token, stores the response's refresh token only when that
field is truthy (`if (tokenResponse.refresh_token)`), stores
`Date.now() + expires_in * 1000` as the new expiry, and returns the new
access token together with the updated store. -/
def refreshAccessToken (endpoint : TokenEndpoint) (now : Nat)
    (refreshToken : Option String) (s : SecretStore) :
    Option (String × SecretStore) :=
  match endpoint refreshToken with
  | none => none
  | some tr =>
    let s1 := { s with accessToken := some tr.access_token }
    let s2 := if truthy tr.refresh_token
              then { s1 with refreshToken := tr.refresh_token }
              else s1
    let s3 := { s2 with tokenExpiry := some (now + tr.expires_in * 1000) }
    some (tr.access_token, s3)

/-- `SpotifyAuth.getAccessToken`: reads the three token entries; when the
access or refresh token is falsy or `Date.now() >= expiryTime - 60_000`
(absent expiry parses to `0`) it performs one refresh call, clearing all
tokens and throwing when the refresh fails.  Result: the returned token
(`none` models a throw), the resulting store, and the number of
token-endpoint calls made. -/
def getAccessToken (endpoint : TokenEndpoint) (now : Nat) (s : SecretStore) :
    Option String × SecretStore × Nat :=
  let accessToken := s.accessToken
  let refreshToken := s.refreshToken
  let expiryTime : Nat := s.tokenExpiry.getD 0
  if ¬ truthy accessToken ∨ ¬ truthy refreshToken ∨
      (now : Int) ≥ (expiryTime : Int) - 60 * 1000 then
    match refreshAccessToken endpoint now refreshToken s with
    | some (tok, s1) =>
      -- the trailing `if (!accessToken) throw` re-check
      if tok = "" then (none, s1, 1) else (some tok, s1, 1)
    | none => (none, clearTokens s, 1)
  else
    (accessToken, s, 0)

/-- `SpotifyAuth.isAuthenticated`: true iff `getAccessToken` does not
throw. -/
def isAuthenticated (endpoint : TokenEndpoint) (now : Nat)
    (s : SecretStore) : Bool :=
  (getAccessToken endpoint now s).1.isSome

end SpotifyAuth

namespace SpotifyApi

/-- One HTTP response seen by `SpotifyApi._fetch`: status code, the
parsed `Retry-After` header in seconds (if any), whether serializing the
error body yields a message containing "No active device found", whether
the response is a no-content case (status 204 or a playback-transport
endpoint URL), and the parsed JSON body. -/
structure HttpResp (α : Type) where
  status : Nat
  retryAfter : Option Nat
  noActiveDevice : Bool
  noContent : Bool
  body : α
  deriving Repr, DecidableEq

/-- The errors `_fetch` constructs and throws inside its `try` block, plus
a transport failure of `fetch` itself. -/
inductive FetchErr where
  | unauthorized
  | rateLimited
  | requestFailed (status : Nat) (noActiveDevice : Bool)
  | network
  deriving Repr, DecidableEq

/-- Whether the error's message contains "No active device found" — the
only errors whose message can are the generic request failures whose
serialized body carries that text. -/
def FetchErr.isNoActiveDevice : FetchErr → Bool
  | .requestFailed _ nad => nad
  | _ => false

/-- How a `_fetch` call ends: resolving with a parsed body, resolving
with the empty object (204/transport endpoints), resolving with
`undefined` because the retry loop ran out without re-throwing, or an
error actually escaping to the caller. -/
inductive FetchOutcome (α : Type) where
  | value (a : α)
  | empty
  | undef
  | thrown (e : FetchErr)
  deriving Repr, DecidableEq

/-- Observable result of a `_fetch` call: its outcome, the list of
`setTimeout` delays (ms) awaited in order, the number of explicit
token-refresh attempts (`getAccessToken()` calls made from the 401
branch), and the number of network fetches issued. -/
structure FetchResult (α : Type) where
  outcome : FetchOutcome α
  delays : List Nat
  refreshes : Nat
  fetches : Nat
  deriving Repr, DecidableEq

/-- The body of `SpotifyApi._fetch`'s `for (let i = 0; i <= retries; i++)`
loop, fuelled by the remaining number of iterations (`retries + 1 - i`).
`responses i` is the response to the fetch issued at iteration `i`
(`none` models `fetch` itself throwing a transport error).  Each branch
mirrors the source: the 401 branch refreshes and continues only at
`i == 0` and otherwise throws `Unauthorized`; the 429 branch waits the
`Retry-After` hint (seconds times 1000) or `500 * 2^i` and continues
while `i < retries`, then throws `RateLimited`; 5xx waits `500 * 2^i`
and continues while `i < retries`; other non-ok statuses throw a generic
request failure.  Every throw lands in the surrounding `catch`, which
re-throws only "No active device found" errors, waits `500 * 2^i` and
continues when `i < retries`, and otherwise merely logs — so that the
loop ends and the call resolves with `undefined`. -/
def fetchAux (responses : Nat → Option (HttpResp α)) (retries : Nat) :
    Nat → Nat → List Nat → Nat → Nat → FetchResult α
  | 0, _, ds, rf, fc => ⟨.undef, ds, rf, fc⟩
  | fuel + 1, i, ds, rf, fc =>
    match responses i with
    | none =>
      -- `fetch` threw; generic catch path
      if i < retries then
        fetchAux responses retries fuel (i + 1) (ds ++ [500 * 2 ^ i]) rf (fc + 1)
      else
        fetchAux responses retries fuel (i + 1) ds rf (fc + 1)
    | some r =>
      if r.status = 401 then
        if i = 0 then
          fetchAux responses retries fuel (i + 1) ds (rf + 1) (fc + 1)
        else
          -- throws Unauthorized; caught by the generic catch
          if i < retries then
            fetchAux responses retries fuel (i + 1) (ds ++ [500 * 2 ^ i]) rf (fc + 1)
          else
            fetchAux responses retries fuel (i + 1) ds rf (fc + 1)
      else if ¬ (200 ≤ r.status ∧ r.status < 300) then
        if r.status = 429 then
          let delay := match r.retryAfter with
            | some sec => sec * 1000
            | none => 500 * 2 ^ i
          if i < retries then
            fetchAux responses retries fuel (i + 1) (ds ++ [delay]) rf (fc + 1)
          else
            -- throws RateLimited; caught, logged, loop ends
            fetchAux responses retries fuel (i + 1) ds rf (fc + 1)
        else if 500 ≤ r.status ∧ i < retries then
          fetchAux responses retries fuel (i + 1) (ds ++ [500 * 2 ^ i]) rf (fc + 1)
        else
          -- generic request failure; caught: re-thrown only for
          -- "No active device found"
          if r.noActiveDevice then
            ⟨.thrown (.requestFailed r.status true), ds, rf, fc + 1⟩
          else if i < retries then
            fetchAux responses retries fuel (i + 1) (ds ++ [500 * 2 ^ i]) rf (fc + 1)
          else
            fetchAux responses retries fuel (i + 1) ds rf (fc + 1)
      else
        if r.noContent then ⟨.empty, ds, rf, fc + 1⟩
        else ⟨.value r.body, ds, rf, fc + 1⟩

/-- `SpotifyApi._fetch` with its retry budget (default 3): runs the loop
from `i = 0` with `retries + 1` iterations of fuel. -/
def fetchSpotify (responses : Nat → Option (HttpResp α))
    (retries : Nat) : FetchResult α :=
  fetchAux responses retries (retries + 1) 0 [] 0 0

/-- A playlist page as used by `getUserPlaylists`: the `items` array
(possibly absent) and the `next` link (absent models `null`). -/
structure Page (α : Type) where
  items : Option (List α)
  next : Option String
  deriving Repr, DecidableEq

/-- The URL trimming `next.next.slice(26)` — dropping the 26 characters
of `https://api.spotify.com/v1`. -/
def sliceFrom26 (s : String) : String := s.drop 26

/-- The pagination `while (next && next.next)` loop of
`SpotifyApi.getUserPlaylists`, fuelled against cyclic `next` chains.
`fetchPage` maps a sliced `next` URL to the fetched page; `none` models
both `_fetch` throwing (the inner catch breaks) and `_fetch` resolving
`undefined` (the `if (next && next.items)` guard then breaks).  When the
fetched page has items they are appended to `res.items`; a page without
items breaks; spreading an absent `res.items` throws and the inner catch
breaks, leaving `res` unchanged. -/
def paginateLoop (fetchPage : String → Option (Page α)) :
    Nat → Page α → Page α → Page α
  | 0, res, _ => res
  | fuel + 1, res, cur =>
    match cur.next with
    | none => res
    | some url =>
      match fetchPage (sliceFrom26 url) with
      | none => res
      | some p =>
        match p.items with
        | none => res
        | some its =>
          match res.items with
          | none => res
          | some acc =>
            paginateLoop fetchPage fuel
              { res with items := some (acc ++ its) } p

/-- `SpotifyApi.getUserPlaylists`: fetches the first page (`none` models
`_fetch` resolving `undefined`, in which case the loop guard fails and
the undefined result is returned), then follows `next` links
accumulating items. -/
def getUserPlaylists (firstPage : Option (Page α))
    (fetchPage : String → Option (Page α)) (fuel : Nat) :
    Option (Page α) :=
  match firstPage with
  | none => none
  | some res => some (paginateLoop fetchPage fuel res res)

/-- A chain of linked pages: `linksTo fetch cur rest` says that starting
from the page `cur`, the `next` links lead through the pages of `rest` in
order (each served by `fetch` at the sliced URL), and the last page's
`next` is null. -/
def linksTo (fetch : String → Option (Page α)) :
    Page α → List (Page α) → Prop
  | cur, [] => cur.next = none
  | cur, p :: ps =>
    ∃ full, cur.next = some full ∧
      fetch (sliceFrom26 full) = some p ∧ linksTo fetch p ps

/-- A chain of linked pages that ends in a failure: starting from `cur`,
the `next` links lead through the pages of `rest` in order (each served
by `fetch` at the sliced URL), and the page after the last one fails to
fetch (`fetch` returns `none`, modelling both a thrown `_fetch` error
and an `undefined` `_fetch` result). -/
def linksToFail (fetch : String → Option (Page α)) :
    Page α → List (Page α) → Prop
  | cur, [] =>
    ∃ full, cur.next = some full ∧ fetch (sliceFrom26 full) = none
  | cur, p :: ps =>
    ∃ full, cur.next = some full ∧
      fetch (sliceFrom26 full) = some p ∧ linksToFail fetch p ps

end SpotifyApi

namespace SpotifyAuth

/-- The standard base64 alphabet used by Node's
`digest("base64")`. -/
def b64StdChars : List Char :=
  ("ABCDEFGHIJKLMNOPQRSTUVWXYZabcdefghijklmnopqrstuvwxyz0123456789+/").toList

/-- The URL-safe base64 alphabet (RFC 4648 `base64url`). -/
def b64UrlChars : List Char :=
  ("ABCDEFGHIJKLMNOPQRSTUVWXYZabcdefghijklmnopqrstuvwxyz0123456789-_").toList

/-- Standard-alphabet character for a 6-bit value. -/
def b64Std (i : Nat) : Char := b64StdChars.getD i 'A'

/-- URL-safe-alphabet character for a 6-bit value. -/
def b64Url (i : Nat) : Char := b64UrlChars.getD i 'A'

/-- Standard base64 encoding (with `=` padding) of a byte list, as
produced by `digest("base64")`. -/
def b64EncodeChars : List Nat → List Char
  | [] => []
  | [a] => [b64Std (a / 4), b64Std (a % 4 * 16), '=', '=']
  | [a, b] =>
    [b64Std (a / 4), b64Std (a % 4 * 16 + b / 16), b64Std (b % 16 * 4), '=']
  | a :: b :: c :: rest =>
    b64Std (a / 4) :: b64Std (a % 4 * 16 + b / 16) ::
      b64Std (b % 16 * 4 + c / 64) :: b64Std (c % 64) ::
      b64EncodeChars rest

/-- URL-safe unpadded base64 encoding of a byte list — the encoding the
claim describes (S256 code challenge format). -/
def b64UrlEncode : List Nat → List Char
  | [] => []
  | [a] => [b64Url (a / 4), b64Url (a % 4 * 16)]
  | [a, b] =>
    [b64Url (a / 4), b64Url (a % 4 * 16 + b / 16), b64Url (b % 16 * 4)]
  | a :: b :: c :: rest =>
    b64Url (a / 4) :: b64Url (a % 4 * 16 + b / 16) ::
      b64Url (b % 16 * 4 + c / 64) :: b64Url (c % 64) ::
      b64UrlEncode rest

/-- `.replace(/\+/g, "-")` on a character. -/
def replPlus (c : Char) : Char := if c = '+' then '-' else c

/-- `.replace(/\//g, "_")` on a character. -/
def replSlash (c : Char) : Char := if c = '/' then '_' else c

/-- `.replace(/=+$/, "")`: strip the trailing run of `=` characters. -/
def dropTrailingEq (l : List Char) : List Char :=
  (l.reverse.dropWhile (fun c => c = '=')).reverse

/-- `SpotifyAuth.generateCodeChallenge`: SHA-256 (an oracle — the digest
is computed by Node's crypto library), standard base64, `+`→`-`,
`/`→`_`, strip trailing `=`. -/
def generateCodeChallenge (sha256 : String → List Nat)
    (codeVerifier : String) : String :=
  String.mk (dropTrailingEq
    (((b64EncodeChars (sha256 codeVerifier)).map replPlus).map replSlash))

/-- The alphabet of `SpotifyAuth.generateRandomString`. -/
def possibleChars : List Char :=
  ("ABCDEFGHIJKLMNOPQRSTUVWXYZabcdefghijklmnopqrstuvwxyz0123456789").toList

/-- `SpotifyAuth.generateRandomString`, applied to the random bytes
drawn from `crypto.randomBytes`: maps each byte into the 62-character
alphabet by reduction modulo its length. -/
def generateRandomString (randomBytes : List Nat) : String :=
  String.mk (randomBytes.map
    (fun x => possibleChars.getD (x % possibleChars.length) 'A'))

/-- The observable state of a `SpotifyAuth` instance together with the
effect counters the claims talk about: the secret store, the
`_currentAuthPromise` field (as the id of the pending promise), the
`_uriHandlerDisposable` field (as the id of the registered listener),
the number of `vscode.env.openExternal` calls, the number of
`vscode.window.registerUriHandler` calls, a fresh-id counter, the
position in the random-byte stream, and the `code_challenge` parameter
placed in the most recently constructed authorization URL. -/
structure AuthMachine where
  secrets : SecretStore
  currentAuthPromise : Option Nat
  uriHandler : Option Nat
  urlsOpened : Nat
  listenersRegistered : Nat
  nextPromiseId : Nat
  rngPos : Nat
  authUrlChallenge : Option String
  deriving Repr, DecidableEq

/-- `SpotifyAuth.authenticate`: if `_currentAuthPromise` is set, return
it unchanged (only an information message is shown).  Otherwise generate
a fresh code verifier from the current random draw (`rand` is the
`crypto.randomBytes` stream, indexed by draw position; the `state`
parameter consumes the following draw), derive the challenge, store the
verifier under `xilie.pkce.codeVerifier`, register the URI handler, open
the authorization URL, and record the new pending promise.  Returns the
machine and the id of the promise the call hands back. -/
def authenticate (sha256 : String → List Nat) (rand : Nat → List Nat)
    (m : AuthMachine) : AuthMachine × Nat :=
  match m.currentAuthPromise with
  | some pid => (m, pid)
  | none =>
    let codeVerifier := generateRandomString (rand m.rngPos)
    let codeChallenge := generateCodeChallenge sha256 codeVerifier
    ({ m with
        secrets := { m.secrets with codeVerifier := some codeVerifier },
        currentAuthPromise := some m.nextPromiseId,
        uriHandler := some m.nextPromiseId,
        urlsOpened := m.urlsOpened + 1,
        listenersRegistered := m.listenersRegistered + 1,
        nextPromiseId := m.nextPromiseId + 1,
        rngPos := m.rngPos + 2,
        authUrlChallenge := some codeChallenge },
      m.nextPromiseId)

/-- The query string of the redirect URI delivered to the registered
handler: the optional `code` and `error` parameters. -/
structure CallbackQuery where
  code : Option String
  error : Option String
  deriving Repr, DecidableEq

/-- How the pending authentication promise is settled by the URI
handler. -/
inductive CallbackResult where
  | authError
  | noCode
  | verifierMissing
  | exchangeFailed
  | success (accessToken : String)
  deriving Repr, DecidableEq

/-- The `handleUri` callback registered by `authenticate`, including the
inlined `exchangeCodeForToken`: dispose the handler first; on a truthy
`error` parameter reject (note: `_currentAuthPromise` is not reset on
this path); on a missing `code` reject likewise; otherwise exchange the
code — reading the stored verifier (throwing when it is falsy), calling
the token endpoint (`exchangeEndpoint code verifier`; `none` models a
non-ok response), storing the three token fields on success — with the
`finally` block resetting `_currentAuthPromise` on the exchange paths
only. -/
def handleUri (exchangeEndpoint : String → String → Option TokenResponse)
    (now : Nat) (m : AuthMachine) (q : CallbackQuery) :
    AuthMachine × CallbackResult :=
  let m1 := { m with uriHandler := none }
  if truthy q.error then (m1, .authError)
  else if ¬ truthy q.code then (m1, .noCode)
  else
    match m1.secrets.codeVerifier with
    | none => ({ m1 with currentAuthPromise := none }, .verifierMissing)
    | some v =>
      if v = "" then
        ({ m1 with currentAuthPromise := none }, .verifierMissing)
      else
        match exchangeEndpoint (q.code.getD "") v with
        | none => ({ m1 with currentAuthPromise := none }, .exchangeFailed)
        | some tr =>
          ({ m1 with
              currentAuthPromise := none,
              secrets := { m1.secrets with
                accessToken := some tr.access_token,
                refreshToken := tr.refresh_token,
                tokenExpiry := some (now + tr.expires_in * 1000) } },
            .success tr.access_token)

/-- `SpotifyAuth.cancelAuthentication`: clear `_currentAuthPromise`; when
a URI handler is registered, dispose it and run `clearTokens` (which
deletes the three token entries but not the PKCE verifier entry). -/
def cancelAuthentication (m : AuthMachine) : AuthMachine :=
  let m1 := { m with currentAuthPromise := none }
  match m1.uriHandler with
  | some _ =>
    { m1 with uriHandler := none, secrets := clearTokens m1.secrets }
  | none => m1

/-- A sequence of `n` successive `authenticate()` calls, returning the
final machine and the list of promise ids handed back, in call order. -/
def authenticateSeq (sha256 : String → List Nat) (rand : Nat → List Nat) :
    Nat → AuthMachine → AuthMachine × List Nat
  | 0, m => (m, [])
  | n + 1, m =>
    let r1 := authenticate sha256 rand m
    let r2 := authenticateSeq sha256 rand n r1.1
    (r2.1, r1.2 :: r2.2)

end SpotifyAuth

end Xilie

namespace Xilie

open SpotifyAuth

/-- Claim C1: when both stored tokens are present and the stored expiry is
more than 60 seconds after the current time, `getAccessToken()` returns
the stored access token unchanged, leaves the store unchanged and makes
no token-endpoint call; when the expiry is within 60 seconds of now or in
the past (tokens present), it makes exactly one refresh call. -/
theorem getAccessToken_fresh_no_refresh (endpoint : TokenEndpoint)
    (now : Nat) (s : SecretStore)
    (hAcc : truthy s.accessToken) (hRef : truthy s.refreshToken) :
    ((now : Int) < (s.tokenExpiry.getD 0 : Nat) - 60 * 1000 →
      getAccessToken endpoint now s = (s.accessToken, s, 0)) ∧
    ((now : Int) ≥ (s.tokenExpiry.getD 0 : Nat) - 60 * 1000 →
      (getAccessToken endpoint now s).2.2 = 1) := by
  constructor
  · intro hlt
    unfold getAccessToken
    rw [if_neg]
    simp only [not_or, not_not, not_le]
    exact ⟨by simp [hAcc], by simp [hRef], hlt⟩
  · intro hge
    unfold getAccessToken
    rw [if_pos]
    · cases hmatch : refreshAccessToken endpoint now s.refreshToken s with
      | none => simp
      | some p =>
        obtain ⟨tok, s1⟩ := p
        by_cases htok : tok = "" <;> simp [htok]
    · right; right; exact hge

/-- Witness for C1 at a concrete store, time and endpoint. -/
theorem getAccessToken_fresh_no_refresh_witness :
    let s : SecretStore :=
      ⟨some "acc", some "ref", some 1000000, none⟩
    let endpoint : TokenEndpoint := fun _ => some ⟨"acc2", none, 3600⟩
    truthy s.accessToken ∧ truthy s.refreshToken ∧
    ((100 : Int) < (s.tokenExpiry.getD 0 : Nat) - 60 * 1000 →
      getAccessToken endpoint 100 s = (s.accessToken, s, 0)) ∧
    ((100 : Int) ≥ (s.tokenExpiry.getD 0 : Nat) - 60 * 1000 →
      (getAccessToken endpoint 100 s).2.2 = 1) := by
  refine ⟨by decide, by decide, ?_⟩
  exact getAccessToken_fresh_no_refresh _ 100 _ (by decide) (by decide)

/-- Claim C5, counterexample: a token-endpoint response that includes the
`refresh_token` field with the empty string (`refresh_token: ""`) does
NOT overwrite the stored refresh token, because the code guards the write
with JavaScript truthiness (`if (tokenResponse.refresh_token)`); the
claim's "overwrites if and only if the response includes a
`refresh_token` field" is therefore false at this input. -/
theorem refreshAccessToken_empty_refresh_token_counterexample :
    let tr : TokenResponse := ⟨"newAcc", some "", 3600⟩
    let s : SecretStore := ⟨some "oldAcc", some "oldRef", some 5, none⟩
    -- the response includes the refresh_token field
    tr.refresh_token.isSome = true ∧
    -- yet the stored refresh token is left unchanged (not overwritten)
    refreshAccessToken (fun _ => some tr) 1000 (some "oldRef") s =
      some ("newAcc", ⟨some "newAcc", some "oldRef", some 3601000, none⟩) := by
  constructor
  · rfl
  · rfl

/-- Claim C5 (amended): a successful refresh persists the new access token
and the new expiry `now + expires_in * 1000`, and overwrites the stored
refresh token if and only if the response carries a truthy (present and
non-empty) `refresh_token`; otherwise the previously stored refresh token
is left unchanged. -/
theorem refreshAccessToken_persists (endpoint : TokenEndpoint) (now : Nat)
    (rt : Option String) (s : SecretStore) (tr : TokenResponse)
    (hep : endpoint rt = some tr) :
    ∃ s1, refreshAccessToken endpoint now rt s = some (tr.access_token, s1) ∧
      s1.accessToken = some tr.access_token ∧
      s1.tokenExpiry = some (now + tr.expires_in * 1000) ∧
      s1.refreshToken =
        (if truthy tr.refresh_token then tr.refresh_token
         else s.refreshToken) ∧
      s1.codeVerifier = s.codeVerifier := by
  unfold refreshAccessToken
  rw [hep]
  by_cases h : truthy tr.refresh_token <;>
    exact ⟨_, rfl, by simp [h], by simp [h], by simp [h], by simp [h]⟩

/-- Witness for C5 (amended) at a concrete response that omits the
`refresh_token` field: the old refresh token survives. -/
theorem refreshAccessToken_persists_witness :
    let tr : TokenResponse := ⟨"newAcc", none, 3600⟩
    let ep : TokenEndpoint := fun _ => some tr
    ep (some "oldRef") = some tr ∧
    ∃ s1, refreshAccessToken ep 1000 (some "oldRef")
        ⟨some "oldAcc", some "oldRef", some 5, none⟩ =
        some (tr.access_token, s1) ∧
      s1.accessToken = some tr.access_token ∧
      s1.tokenExpiry = some (1000 + tr.expires_in * 1000) ∧
      s1.refreshToken =
        (if truthy tr.refresh_token then tr.refresh_token
         else some "oldRef") ∧
      s1.codeVerifier = none := by
  exact ⟨rfl, refreshAccessToken_persists _ 1000 _
    ⟨some "oldAcc", some "oldRef", some 5, none⟩ _ rfl⟩

/-- Helper: when the refresh path is taken and the token endpoint
rejects the refresh request, `getAccessToken` clears the tokens and
throws, after a single endpoint call. -/
theorem getAccessToken_endpoint_fail (endpoint : TokenEndpoint)
    (now : Nat) (s : SecretStore)
    (hcond : ¬ truthy s.accessToken ∨ ¬ truthy s.refreshToken ∨
      (now : Int) ≥ (s.tokenExpiry.getD 0 : Nat) - 60 * 1000)
    (hfail : endpoint s.refreshToken = none) :
    getAccessToken endpoint now s = (none, clearTokens s, 1) := by
  unfold getAccessToken
  rw [if_pos (by simpa using hcond)]
  unfold refreshAccessToken
  rw [hfail]

/-- Claim C6: whenever `getAccessToken()` takes the refresh path (stale,
absent or falsy stored tokens) and the refresh call fails, all three
persisted token fields are cleared in the resulting store and the call
fails (`none`), after exactly one (never-retried) token-endpoint call.
An absent refresh token is covered by the hypothesis that the endpoint
rejects the resulting request. -/
theorem getAccessToken_refresh_failure_clears (endpoint : TokenEndpoint)
    (now : Nat) (s : SecretStore)
    (hcond : ¬ truthy s.accessToken ∨ ¬ truthy s.refreshToken ∨
      (now : Int) ≥ (s.tokenExpiry.getD 0 : Nat) - 60 * 1000)
    (hfail : endpoint s.refreshToken = none) :
    getAccessToken endpoint now s = (none, clearTokens s, 1) ∧
    (clearTokens s).accessToken = none ∧
    (clearTokens s).refreshToken = none ∧
    (clearTokens s).tokenExpiry = none :=
  ⟨getAccessToken_endpoint_fail endpoint now s hcond hfail, rfl, rfl, rfl⟩

open SpotifyApi

/-- Claim C2, behaviour at the failing input: with every attempt answered
HTTP 429 carrying `Retry-After: 2`, the client waits 2000ms (≥ the hint)
before each of its 3 retries, but after the budget is exhausted the
`RateLimited` error it throws is caught by the generic retry `catch`,
merely logged, and the call resolves with `undefined` instead of
surfacing the error: 4 fetches, delays `[2000, 2000, 2000]`, outcome
`undef`. -/
theorem fetch_429_budget_swallowed :
    fetchSpotify
        (fun _ => some (⟨429, some 2, false, false, 0⟩ : HttpResp Nat)) 3 =
      ⟨.undef, [2000, 2000, 2000], 0, 4⟩ ∧
    ∀ d ∈ (fetchSpotify
        (fun _ => some (⟨429, some 2, false, false, 0⟩ : HttpResp Nat))
        3).delays, 2000 ≤ d := by
  exact ⟨by decide, by decide⟩

/-- Claim C3, behaviour at the failing input: with every attempt answered
HTTP 401, the client refreshes exactly once (attempt 0), but the
`Unauthorized` error thrown on the retried attempt is caught by the
generic retry `catch`, which retries the 401'd request twice more (delays
`[1000, 2000]`, 4 fetches in total) and finally swallows the error,
resolving with `undefined` instead of surfacing `Unauthorized`. -/
theorem fetch_401_refresh_then_swallowed :
    fetchSpotify
        (fun _ => some (⟨401, none, false, false, 0⟩ : HttpResp Nat)) 3 =
      ⟨.undef, [1000, 2000], 1, 4⟩ := by
  decide

/-- Helper for C4: running the pagination loop along a fully linked chain
of pages whose `items` are all present concatenates all their items, in
order, onto the accumulator. -/
theorem paginateLoop_chain {α : Type} (fetch : String → Option (Page α)) :
    ∀ (rest : List (Page α)) (cur res : Page α) (acc : List α) (fuel : Nat),
      linksTo fetch cur rest → res.items = some acc →
      (∀ p ∈ rest, p.items.isSome) → rest.length ≤ fuel →
      (paginateLoop fetch fuel res cur).items =
        some (acc ++ (rest.map (fun p => p.items.getD [])).flatten)
  | [], cur, res, acc, fuel, hlink, hres, _, _ => by
    have hnext : cur.next = none := hlink
    cases fuel with
    | zero => simpa using hres
    | succ f =>
      unfold paginateLoop
      rw [hnext]
      simpa using hres
  | p :: ps, cur, res, acc, fuel, hlink, hres, hitems, hlen => by
    obtain ⟨full, hnext, hfetch, hrest⟩ := hlink
    cases fuel with
    | zero => simp at hlen
    | succ f =>
      obtain ⟨l, hl⟩ :=
        Option.isSome_iff_exists.mp (hitems p (List.mem_cons_self _ _))
      have ih := paginateLoop_chain fetch ps p
        { res with items := some (acc ++ l) } (acc ++ l) f hrest rfl
        (fun q hq => hitems q (List.mem_cons_of_mem _ hq))
        (by simpa using hlen)
      simp only [paginateLoop, hnext, hfetch, hl, hres, ih,
        List.map_cons, List.flatten_cons, Option.getD_some,
        List.append_assoc]

/-- Helper for C4: running the pagination loop along a chain of pages
that are all fetched successfully and followed by a failing fetch
concatenates exactly the successfully fetched pages' items, in order,
onto the accumulator — the failure stops the loop and keeps the
accumulation so far. -/
theorem paginateLoop_chain_fail {α : Type}
    (fetch : String → Option (Page α)) :
    ∀ (rest : List (Page α)) (cur res : Page α) (acc : List α) (fuel : Nat),
      linksToFail fetch cur rest → res.items = some acc →
      (∀ p ∈ rest, p.items.isSome) → rest.length < fuel →
      (paginateLoop fetch fuel res cur).items =
        some (acc ++ (rest.map (fun p => p.items.getD [])).flatten)
  | [], cur, res, acc, fuel, hlink, hres, _, hlen => by
    obtain ⟨full, hnext, hfail⟩ := hlink
    cases fuel with
    | zero => simp at hlen
    | succ f =>
      simp only [paginateLoop, hnext, hfail]
      simpa using hres
  | p :: ps, cur, res, acc, fuel, hlink, hres, hitems, hlen => by
    obtain ⟨full, hnext, hfetch, hrest⟩ := hlink
    cases fuel with
    | zero => simp at hlen
    | succ f =>
      obtain ⟨l, hl⟩ :=
        Option.isSome_iff_exists.mp (hitems p (List.mem_cons_self _ _))
      have ih := paginateLoop_chain_fail fetch ps p
        { res with items := some (acc ++ l) } (acc ++ l) f hrest rfl
        (fun q hq => hitems q (List.mem_cons_of_mem _ hq))
        (by simpa using Nat.lt_of_succ_lt_succ hlen)
      simp only [paginateLoop, hnext, hfetch, hl, hres, ih,
        List.map_cons, List.flatten_cons, Option.getD_some,
        List.append_assoc]

/-- Claim C4: the pagination of `getUserPlaylists` follows each `next`
link, concatenating the `items` arrays in original page order until
`next` is null (first conjunct: for every fully linked chain of
follow-up pages, the result holds the first page's items followed by all
follow-up items in order); and a failed page fetch at any position stops
pagination and returns the accumulation of all pages fetched so far
(second conjunct: for every chain of successfully followed pages ending
in a failing fetch, the result holds the first page's items followed by
exactly the successfully fetched pages' items in order). -/
theorem getUserPlaylists_pagination {α : Type} :
    (∀ (fetch : String → Option (Page α)) (rest : List (Page α))
        (res : Page α) (acc : List α) (fuel : Nat),
      linksTo fetch res rest → res.items = some acc →
      (∀ p ∈ rest, p.items.isSome) → rest.length ≤ fuel →
      ∃ result, getUserPlaylists (some res) fetch fuel = some result ∧
        result.items =
          some (acc ++ (rest.map (fun p => p.items.getD [])).flatten)) ∧
    (∀ (fetch : String → Option (Page α)) (rest : List (Page α))
        (res : Page α) (acc : List α) (fuel : Nat),
      linksToFail fetch res rest → res.items = some acc →
      (∀ p ∈ rest, p.items.isSome) → rest.length < fuel →
      ∃ result, getUserPlaylists (some res) fetch fuel = some result ∧
        result.items =
          some (acc ++ (rest.map (fun p => p.items.getD [])).flatten)) := by
  constructor
  · intro fetch rest res acc fuel hlink hres hitems hlen
    exact ⟨_, rfl, paginateLoop_chain fetch rest res res acc fuel
      hlink hres hitems hlen⟩
  · intro fetch rest res acc fuel hlink hres hitems hlen
    exact ⟨_, rfl, paginateLoop_chain_fail fetch rest res res acc fuel
      hlink hres hitems hlen⟩

set_option maxRecDepth 8192 in
/-- Witness for C4, instantiating both conjuncts at the claim's concrete
scenario: three linked pages of 2/2/1 items yield all 5 items in order;
with page 2's fetch failing, only page 1's 2 items remain; and with
page 3's fetch failing after page 2 was followed successfully, the
4 items of pages 1 and 2 remain. -/
theorem getUserPlaylists_pagination_witness :
    let page3 : Page Nat := ⟨some [5], none⟩
    let page2 : Page Nat :=
      ⟨some [3, 4], some "https://api.spotify.com/v1/p3"⟩
    let page1 : Page Nat :=
      ⟨some [1, 2], some "https://api.spotify.com/v1/p2"⟩
    let fetch : String → Option (Page Nat) := fun u =>
      if u = "/p2" then some page2
      else if u = "/p3" then some page3 else none
    let fetchFail2 : String → Option (Page Nat) := fun _ => none
    let fetchFail3 : String → Option (Page Nat) := fun u =>
      if u = "/p2" then some page2 else none
    (∃ result, getUserPlaylists (some page1) fetch 2 = some result ∧
      result.items = some ([1, 2] ++
        (([page2, page3]).map (fun p => p.items.getD [])).flatten)) ∧
    (∃ result, getUserPlaylists (some page1) fetchFail2 1 = some result ∧
      result.items = some ([1, 2] ++
        (([] : List (Page Nat)).map (fun p => p.items.getD [])).flatten)) ∧
    (∃ result, getUserPlaylists (some page1) fetchFail3 2 = some result ∧
      result.items = some ([1, 2] ++
        (([page2]).map (fun p => p.items.getD [])).flatten)) := by
  intro page3 page2 page1 fetch fetchFail2 fetchFail3
  refine ⟨?_, ?_, ?_⟩
  · exact getUserPlaylists_pagination.1 fetch [page2, page3] page1 [1, 2] 2
      ⟨"https://api.spotify.com/v1/p2", rfl, by decide,
        ⟨"https://api.spotify.com/v1/p3", rfl, by decide, rfl⟩⟩
      rfl (by decide) (by decide)
  · exact getUserPlaylists_pagination.2 fetchFail2 [] page1 [1, 2] 1
      ⟨"https://api.spotify.com/v1/p2", rfl, rfl⟩
      rfl (by decide) (by decide)
  · exact getUserPlaylists_pagination.2 fetchFail3 [page2] page1 [1, 2] 2
      ⟨"https://api.spotify.com/v1/p2", rfl, by decide,
        ⟨"https://api.spotify.com/v1/p3", rfl, by decide⟩⟩
      rfl (by decide) (by decide)

/-- Helper: URL-safe alphabet characters are never the padding
character. -/
theorem b64Url_ne_eqChar (i : Nat) : b64Url i ≠ '=' := by
  by_cases h : i < 64
  · exact (by decide : ∀ j : Fin 64, b64Url j.1 ≠ '=') ⟨i, h⟩
  · unfold b64Url
    rw [List.getD_eq_default]
    · decide
    · have hlen : b64UrlChars.length = 64 := by decide
      omega

/-- Helper: the two character replacements turn each standard-alphabet
character into the corresponding URL-safe-alphabet character. -/
theorem replSlash_replPlus_b64Std (i : Nat) :
    replSlash (replPlus (b64Std i)) = b64Url i := by
  by_cases h : i < 64
  · exact (by decide :
      ∀ j : Fin 64, replSlash (replPlus (b64Std j.1)) = b64Url j.1) ⟨i, h⟩
  · unfold b64Std b64Url
    rw [List.getD_eq_default, List.getD_eq_default]
    · decide
    · have hlen : b64UrlChars.length = 64 := by decide
      omega
    · have hlen : b64StdChars.length = 64 := by decide
      omega

/-- Helper: `dropWhile` over an append when the first part does not
vanish. -/
theorem dropWhile_append_of_ne_nil {α : Type} (p : α → Bool) :
    ∀ (u v : List α), List.dropWhile p u ≠ [] →
      List.dropWhile p (u ++ v) = List.dropWhile p u ++ v
  | [], _, h => absurd rfl h
  | a :: u, v, h => by
    by_cases hpa : p a
    · rw [List.cons_append, List.dropWhile_cons_of_pos hpa,
        List.dropWhile_cons_of_pos hpa]
      exact dropWhile_append_of_ne_nil p u v
        (by rwa [List.dropWhile_cons_of_pos hpa] at h)
    · rw [List.cons_append, List.dropWhile_cons_of_neg hpa,
        List.dropWhile_cons_of_neg hpa, List.cons_append]

/-- Helper: stripping the trailing `=` run from a padding-free list
followed by padding recovers the list. -/
theorem dropTrailingEq_append_replicate (xs : List Char) (k : Nat)
    (h : ∀ c ∈ xs, c ≠ '=') :
    dropTrailingEq (xs ++ List.replicate k '=') = xs := by
  induction k with
  | zero =>
    rw [List.replicate_zero, List.append_nil]
    unfold dropTrailingEq
    rw [List.dropWhile_eq_self_iff.mpr, List.reverse_reverse]
    intro hl
    simp only [decide_eq_true_eq]
    refine h _ ?_
    rw [← List.mem_reverse]
    exact List.get_mem xs.reverse _ _
  | succ n ih =>
    rw [List.replicate_succ', ← List.append_assoc]
    unfold dropTrailingEq
    rw [List.reverse_append]
    simp only [List.reverse_singleton, List.singleton_append,
      List.dropWhile_cons_of_pos (by decide : ('=' = '=' : Bool))]
    exact ih

/-- Helper: stripping the trailing `=` run distributes over an append
whose right part does not strip to nothing. -/
theorem dropTrailingEq_append (xs ys : List Char)
    (h : dropTrailingEq ys ≠ []) :
    dropTrailingEq (xs ++ ys) = xs ++ dropTrailingEq ys := by
  have hne : List.dropWhile (fun c => c = '=') ys.reverse ≠ [] := by
    intro h0
    exact h (by unfold dropTrailingEq; rw [h0]; rfl)
  unfold dropTrailingEq
  rw [List.reverse_append, dropWhile_append_of_ne_nil _ _ _ hne,
    List.reverse_append, List.reverse_reverse]

/-- Helper: mapping 6-bit values through the URL-safe alphabet never
produces the padding character. -/
theorem mem_map_b64Url_ne_eqChar (l : List Nat) :
    ∀ c ∈ l.map b64Url, c ≠ '=' := by
  intro c hc
  obtain ⟨i, _, rfl⟩ := List.mem_map.mp hc
  exact b64Url_ne_eqChar i

/-- Helper: the URL-safe encoding of a nonempty byte list is
nonempty. -/
theorem b64UrlEncode_ne_nil :
    ∀ (a : Nat) (bs : List Nat), b64UrlEncode (a :: bs) ≠ []
  | _, [] => by simp [b64UrlEncode]
  | _, [_] => by simp [b64UrlEncode]
  | _, _ :: _ :: _ => by simp [b64UrlEncode]

/-- Helper, the heart of C9: applying the two character replacements to
the standard padded base64 encoding and stripping the trailing padding
yields exactly the URL-safe unpadded base64 encoding, for every byte
list. -/
theorem dropTrailingEq_map_b64Encode :
    ∀ bytes : List Nat,
      dropTrailingEq (((b64EncodeChars bytes).map replPlus).map replSlash)
        = b64UrlEncode bytes
  | [] => rfl
  | [a] => by
    simp only [b64EncodeChars, List.map_cons, List.map_nil,
      replSlash_replPlus_b64Std,
      (by decide : replSlash (replPlus '=') = '=')]
    have h2 := dropTrailingEq_append_replicate
      [b64Url (a / 4), b64Url (a % 4 * 16)] 2
      (mem_map_b64Url_ne_eqChar [a / 4, a % 4 * 16])
    simpa using h2
  | [a, b] => by
    simp only [b64EncodeChars, List.map_cons, List.map_nil,
      replSlash_replPlus_b64Std,
      (by decide : replSlash (replPlus '=') = '=')]
    have h1 := dropTrailingEq_append_replicate
      [b64Url (a / 4), b64Url (a % 4 * 16 + b / 16), b64Url (b % 16 * 4)] 1
      (mem_map_b64Url_ne_eqChar [a / 4, a % 4 * 16 + b / 16, b % 16 * 4])
    simpa using h1
  | a :: b :: c :: rest => by
    have hchunk : ∀ x ∈ [b64Url (a / 4), b64Url (a % 4 * 16 + b / 16),
        b64Url (b % 16 * 4 + c / 64), b64Url (c % 64)], x ≠ '=' :=
      mem_map_b64Url_ne_eqChar
        [a / 4, a % 4 * 16 + b / 16, b % 16 * 4 + c / 64, c % 64]
    cases rest with
    | nil =>
      simp only [b64EncodeChars, List.map_cons, List.map_nil,
        replSlash_replPlus_b64Std, b64UrlEncode]
      have h0 := dropTrailingEq_append_replicate
        [b64Url (a / 4), b64Url (a % 4 * 16 + b / 16),
          b64Url (b % 16 * 4 + c / 64), b64Url (c % 64)] 0 hchunk
      simpa using h0
    | cons d rest1 =>
      have ih := dropTrailingEq_map_b64Encode (d :: rest1)
      have hne : dropTrailingEq
          (((b64EncodeChars (d :: rest1)).map replPlus).map replSlash)
            ≠ [] := by
        rw [ih]; exact b64UrlEncode_ne_nil d rest1
      simp only [b64EncodeChars, List.map_cons,
        replSlash_replPlus_b64Std, b64UrlEncode]
      have happ := dropTrailingEq_append
        [b64Url (a / 4), b64Url (a % 4 * 16 + b / 16),
          b64Url (b % 16 * 4 + c / 64), b64Url (c % 64)]
        (((b64EncodeChars (d :: rest1)).map replPlus).map replSlash) hne
      simp only [List.cons_append, List.nil_append] at happ
      rw [happ, ih]

/-- Claim C9: for every verifier the code challenge placed in the
authorization URL is the URL-safe unpadded base64 encoding of its
SHA-256 digest (first conjunct, for every digest function and verifier),
so the challenge validates against the stored verifier per the S256
method; and each authentication attempt generates a fresh verifier from
the current position of the random stream, storing it and deriving the
URL's challenge from it (second conjunct). -/
theorem generateCodeChallenge_s256_fresh :
    (∀ (sha256 : String → List Nat) (v : String),
      generateCodeChallenge sha256 v = String.mk (b64UrlEncode (sha256 v))) ∧
    (∀ (sha256 : String → List Nat) (rand : Nat → List Nat)
        (m : AuthMachine), m.currentAuthPromise = none →
      (authenticate sha256 rand m).1.secrets.codeVerifier =
          some (generateRandomString (rand m.rngPos)) ∧
        (authenticate sha256 rand m).1.authUrlChallenge =
          some (generateCodeChallenge sha256
            (generateRandomString (rand m.rngPos)))) := by
  constructor
  · intro sha v
    unfold generateCodeChallenge
    rw [dropTrailingEq_map_b64Encode]
  · intro sha rand m hm
    refine ⟨?_, ?_⟩ <;> simp only [authenticate, hm]

/-- Witness for C9 at a concrete digest oracle, random stream and
machine. -/
theorem generateCodeChallenge_s256_fresh_witness :
    let sha : String → List Nat := fun _ => [1, 2, 3]
    let rand : Nat → List Nat := fun _ => [0, 1, 2]
    let m : AuthMachine := ⟨⟨none, none, none, none⟩, none, none, 0, 0, 0, 0, none⟩
    generateCodeChallenge sha "v" = String.mk (b64UrlEncode (sha "v")) ∧
    m.currentAuthPromise = none ∧
    ((authenticate sha rand m).1.secrets.codeVerifier =
        some (generateRandomString (rand m.rngPos)) ∧
      (authenticate sha rand m).1.authUrlChallenge =
        some (generateCodeChallenge sha
          (generateRandomString (rand m.rngPos)))) := by
  exact ⟨generateCodeChallenge_s256_fresh.1 _ _, rfl,
    generateCodeChallenge_s256_fresh.2 _ _ _ rfl⟩

/-- Witness for C6: no refresh token stored, endpoint rejecting the
refresh request. -/
theorem getAccessToken_refresh_failure_clears_witness :
    let s : SecretStore := ⟨some "acc", none, some 1000000, some "ver"⟩
    let endpoint : TokenEndpoint := fun _ => none
    getAccessToken endpoint 100 s = (none, clearTokens s, 1) ∧
    (clearTokens s).accessToken = none ∧
    (clearTokens s).refreshToken = none ∧
    (clearTokens s).tokenExpiry = none := by
  exact getAccessToken_refresh_failure_clears _ 100 _
    (Or.inr (Or.inl (by decide))) rfl

/-- Helper: `authenticate()` while an attempt is pending is a no-op
returning the pending promise. -/
theorem authenticate_pending (sha256 : String → List Nat)
    (rand : Nat → List Nat) (m : AuthMachine) (pid : Nat)
    (h : m.currentAuthPromise = some pid) :
    authenticate sha256 rand m = (m, pid) := by
  simp only [authenticate, h]

/-- Helper: a whole sequence of `authenticate()` calls made while an
attempt is pending changes nothing and returns the pending promise every
time. -/
theorem authenticateSeq_pending (sha256 : String → List Nat)
    (rand : Nat → List Nat) (pid : Nat) :
    ∀ (n : Nat) (m : AuthMachine), m.currentAuthPromise = some pid →
      authenticateSeq sha256 rand n m = (m, List.replicate n pid)
  | 0, _, _ => rfl
  | n + 1, m, h => by
    simp only [authenticateSeq, authenticate_pending sha256 rand m pid h,
      authenticateSeq_pending sha256 rand pid n m h, List.replicate_succ]

/-- Claim C7: starting with no attempt pending, a sequence of `n + 1`
`authenticate()` calls (the first starts the attempt, the rest arrive
while it is pending) hands every caller the same pending promise, and
across the whole sequence exactly one authorization URL is opened and
exactly one URI callback listener is registered. -/
theorem authenticate_single_flight (sha256 : String → List Nat)
    (rand : Nat → List Nat) (m : AuthMachine) (n : Nat)
    (h : m.currentAuthPromise = none) :
    (authenticateSeq sha256 rand (n + 1) m).2 =
      List.replicate (n + 1) (authenticate sha256 rand m).2 ∧
    (authenticateSeq sha256 rand (n + 1) m).1.urlsOpened =
      m.urlsOpened + 1 ∧
    (authenticateSeq sha256 rand (n + 1) m).1.listenersRegistered =
      m.listenersRegistered + 1 := by
  have hstep : (authenticate sha256 rand m).1.currentAuthPromise =
      some (authenticate sha256 rand m).2 := by
    simp only [authenticate, h]
  have hseq := authenticateSeq_pending sha256 rand
    (authenticate sha256 rand m).2 n (authenticate sha256 rand m).1 hstep
  have hurls : (authenticate sha256 rand m).1.urlsOpened =
      m.urlsOpened + 1 := by
    simp only [authenticate, h]
  have hlis : (authenticate sha256 rand m).1.listenersRegistered =
      m.listenersRegistered + 1 := by
    simp only [authenticate, h]
  refine ⟨?_, ?_, ?_⟩ <;>
    simp only [authenticateSeq, hseq, List.replicate_succ, hurls, hlis]

/-- Witness for C7: a fresh machine, three calls in a row. -/
theorem authenticate_single_flight_witness :
    let sha : String → List Nat := fun _ => [1, 2, 3]
    let rand : Nat → List Nat := fun _ => [0, 1, 2]
    let m : AuthMachine := ⟨⟨none, none, none, none⟩, none, none, 0, 0, 0, 0, none⟩
    (authenticateSeq sha rand 3 m).2 =
      List.replicate 3 (authenticate sha rand m).2 ∧
    (authenticateSeq sha rand 3 m).1.urlsOpened = 1 ∧
    (authenticateSeq sha rand 3 m).1.listenersRegistered = 1 := by
  exact authenticate_single_flight _ _ _ 2 rfl

/-- Claim C8, behaviour at the failing input: in `AwaitingCallback` (a
pending promise, a registered handler, the verifier and earlier tokens
stored), a callback carrying an `error` parameter rejects the promise
but leaves `_currentAuthPromise` set and clears nothing — so a later
`authenticate()` joins the dead attempt (same promise id, no new URL
opened) instead of starting fresh; and a failed code-for-token exchange
does end the attempt but also clears no stored fields.  The claim says
every failure returns the controller to `Unauthenticated` with tokens
cleared. -/
theorem handleUri_failure_state :
    let s0 : SecretStore := ⟨some "tok", some "ref", some 999, some "ver"⟩
    let m : AuthMachine := ⟨s0, some 0, some 7, 1, 1, 1, 2, none⟩
    let ex : String → String → Option TokenResponse := fun _ _ => none
    let sha : String → List Nat := fun _ => []
    let rand : Nat → List Nat := fun _ => []
    let rErr := handleUri ex 0 m ⟨none, some "access_denied"⟩
    let rFail := handleUri ex 0 m ⟨some "authcode", none⟩
    -- authorization error: promise rejected, but attempt not over and
    -- nothing cleared
    rErr.2 = .authError ∧
    rErr.1.currentAuthPromise = some 0 ∧
    rErr.1.secrets = s0 ∧
    -- a later authenticate() returns the dead promise and opens no URL
    (authenticate sha rand rErr.1).2 = 0 ∧
    (authenticate sha rand rErr.1).1.urlsOpened = 1 ∧
    -- failed exchange: attempt over, but no stored field cleared
    rFail.2 = .exchangeFailed ∧
    rFail.1.currentAuthPromise = none ∧
    rFail.1.secrets = s0 := by
  decide

/-- Claim C10, counterexample: cancelling during `AwaitingCallback`
leaves the PKCE code verifier in the secret store — `clearTokens()`
deletes only the three token entries, never `xilie.pkce.codeVerifier` —
so the claim's "removes the stored PKCE code verifier" is false. -/
theorem cancelAuthentication_verifier_remains :
    let m : AuthMachine :=
      ⟨⟨some "tok", some "ref", some 999, some "ver"⟩, some 0, some 7,
        1, 1, 1, 2, none⟩
    (cancelAuthentication m).secrets.codeVerifier = some "ver" := by
  decide

/-- Claim C10 (amended): cancelling while a callback listener is
registered disposes the listener, clears the pending promise and the
three token entries — leaving `isAuthenticated()` false (for any token
endpoint rejecting a refresh request without a refresh token) — but
leaves the stored PKCE code verifier untouched. -/
theorem cancelAuthentication_disposes_and_clears (m : AuthMachine)
    (hid : Nat) (hh : m.uriHandler = some hid) :
    (cancelAuthentication m).uriHandler = none ∧
    (cancelAuthentication m).currentAuthPromise = none ∧
    (cancelAuthentication m).secrets.accessToken = none ∧
    (cancelAuthentication m).secrets.refreshToken = none ∧
    (cancelAuthentication m).secrets.tokenExpiry = none ∧
    (cancelAuthentication m).secrets.codeVerifier =
      m.secrets.codeVerifier ∧
    ∀ (endpoint : TokenEndpoint) (now : Nat), endpoint none = none →
      isAuthenticated endpoint now (cancelAuthentication m).secrets =
        false := by
  have hsec : cancelAuthentication m =
      { m with
          currentAuthPromise := none
          uriHandler := none
          secrets := clearTokens m.secrets } := by
    simp only [cancelAuthentication, hh]
  rw [hsec]
  refine ⟨rfl, rfl, rfl, rfl, rfl, rfl, ?_⟩
  intro endpoint now hep
  unfold isAuthenticated
  rw [getAccessToken_endpoint_fail endpoint now (clearTokens m.secrets)
    (Or.inl (by simp [clearTokens, truthy])) (by simpa [clearTokens] using hep)]
  rfl

/-- Witness for C10 (amended) at a concrete machine and endpoint. -/
theorem cancelAuthentication_disposes_and_clears_witness :
    let m : AuthMachine :=
      ⟨⟨some "tok", some "ref", some 999, some "pkceVer"⟩, some 0, some 7,
        1, 1, 1, 2, none⟩
    (cancelAuthentication m).uriHandler = none ∧
    (cancelAuthentication m).currentAuthPromise = none ∧
    (cancelAuthentication m).secrets.accessToken = none ∧
    (cancelAuthentication m).secrets.refreshToken = none ∧
    (cancelAuthentication m).secrets.tokenExpiry = none ∧
    (cancelAuthentication m).secrets.codeVerifier =
      m.secrets.codeVerifier ∧
    ∀ (endpoint : TokenEndpoint) (now : Nat), endpoint none = none →
      isAuthenticated endpoint now (cancelAuthentication m).secrets =
        false := by
  exact cancelAuthentication_disposes_and_clears _ 7 rfl

end Xilie
